import Mathlib

/-
Shallow embedding of the link-like-lgp-rank-archive collectors.

Source files embedded here:
  - src/utils.py        : retry_request (lines 21-137), fetch_player_profile (lines 224-295)
  - src/multicatch.py   : RankingDataCollector.fetch_ranking (lines 59-97),
                          RankingDataCollector.collect_data (lines 224-421)
  - src/catchgraderank.py : GradeRankingDataCollector.fetch_grade_ranking (lines 140-177),
                          GradeRankingDataCollector.collect_data (lines 198-312)
  - src/config.py       : CHARACTER_NAMES (lines 330-342)

Modelling conventions: parsed JSON bodies are a small inductive type; the
Python float inf initial stop rank is Option Nat with none standing for
infinity; sys.exit(1) is a distinguished result constructor; network calls
are oracles passed in as function arguments; thread interleavings are lists
of atomic events, each event standing for one lock-protected region.
-/

namespace LGP

/- ===== RetryingTransport: utils.retry_request (src/utils.py lines 21-137) ===== -/

/-- Parse result of a response body: unparseable JSON, a non-dict JSON value,
or a dict whose error_code key is the given optional string. -/
inductive Body where
  | parseFail : Body
  | nondict : Body
  | dict : Option String → Body
deriving DecidableEq, Repr

/-- The fatal sentinel check performed at utils.py lines 41, 65, 92, 112:
a dict body whose error_code equals the event-not-active code. -/
def isSentinel : Body → Bool
  | Body.dict (some ec) => ec = "21001_210102"
  | _ => false

/-- One behaviour of the wrapped callable on one invocation:
resp status body textNonempty = it returned a requests.Response with that
status, whose text parses to body, and whose text is nonempty (Python truthy);
value b = it returned a non-Response value, b = true meaning Python None;
reqExc rb = it raised requests.RequestException, rb = some b meaning the
exception carries a response with nonempty text parsing to b;
genExc = it raised a non-RequestException exception. -/
inductive Attempt where
  | resp : Nat → Body → Bool → Attempt
  | value : Bool → Attempt
  | reqExc : Option Body → Attempt
  | genExc : Attempt
deriving DecidableEq, Repr

/-- Result of the wrapper: exits n = sys.exit(n); retBody b = returned the
parsed dict or JSON value; retValue = returned a non-Response truthy value;
retNone = returned None. -/
inductive RRes where
  | exits : Nat → RRes
  | retBody : Body → RRes
  | retValue : RRes
  | retNone : RRes
deriving DecidableEq, Repr

/-- Observable outcome of one run of the wrapper: the returned value, the
number of invocations of the wrapped callable, and the backoff sleeps
performed between attempts, in order. -/
structure RunOut where
  result : RRes
  calls : Nat
  sleeps : List Nat
deriving DecidableEq, Repr

/-- The wrapper body of utils.retry_request (src/utils.py lines 28-137).
Arguments: d = initial_delay, m = max_retries, then the list of behaviours of
the wrapped callable on successive invocations, the current retries counter,
and last_response (none = Python falsy: either None or the empty string).
Branches follow the source:
  - a returned Response is first probed for the sentinel regardless of status
    (lines 38-49); on status 200 the body is returned (lines 51-58), except
    that an unparseable body makes response.json() raise a RequestException
    subclass that carries no recoverable response text; on any other status
    last_response is overwritten with response.text and a RequestException is
    raised (lines 59-76);
  - the RequestException handler (lines 81-126) records the exception
    response text only when last_response is falsy, probing the newly
    recorded body for the sentinel (lines 84-100); at exhaustion it probes
    last_response once more (lines 103-122) and returns None;
  - a non-Response value is returned if truthy, else a plain Exception is
    raised (lines 78-80) and the generic handler (lines 127-135) retries
    without touching last_response and returns None at exhaustion. -/
def retryRun (d m : Nat) : List Attempt → Nat → Option Body → RunOut
  | [], _, _ => ⟨RRes.retNone, 0, []⟩
  | a :: rest, retries, lastResp =>
    if retries < m then
      match a with
      | Attempt.resp status body textNonempty =>
        if isSentinel body then ⟨RRes.exits 1, 1, []⟩
        else if status = 200 then
          if body = Body.parseFail then
            if retries + 1 = m then
              match lastResp with
              | some b => if isSentinel b then ⟨RRes.exits 1, 1, []⟩ else ⟨RRes.retNone, 1, []⟩
              | none => ⟨RRes.retNone, 1, []⟩
            else
              let out := retryRun d m rest (retries + 1) lastResp
              ⟨out.result, out.calls + 1, d * 2 ^ retries :: out.sleeps⟩
          else ⟨RRes.retBody body, 1, []⟩
        else
          let last2 : Option Body := if textNonempty then some body else none
          if retries + 1 = m then
            match last2 with
            | some b => if isSentinel b then ⟨RRes.exits 1, 1, []⟩ else ⟨RRes.retNone, 1, []⟩
            | none => ⟨RRes.retNone, 1, []⟩
          else
            let out := retryRun d m rest (retries + 1) last2
            ⟨out.result, out.calls + 1, d * 2 ^ retries :: out.sleeps⟩
      | Attempt.value isNone =>
        if isNone then
          if retries + 1 = m then ⟨RRes.retNone, 1, []⟩
          else
            let out := retryRun d m rest (retries + 1) lastResp
            ⟨out.result, out.calls + 1, d * 2 ^ retries :: out.sleeps⟩
        else ⟨RRes.retValue, 1, []⟩
      | Attempt.reqExc respBody =>
        match lastResp, respBody with
        | none, some b =>
          if isSentinel b then ⟨RRes.exits 1, 1, []⟩
          else if retries + 1 = m then
            -- at exhaustion last_response = b is probed again; b is not the
            -- sentinel in this branch, so the run returns None
            ⟨RRes.retNone, 1, []⟩
          else
            let out := retryRun d m rest (retries + 1) (some b)
            ⟨out.result, out.calls + 1, d * 2 ^ retries :: out.sleeps⟩
        | none, none =>
          if retries + 1 = m then ⟨RRes.retNone, 1, []⟩
          else
            let out := retryRun d m rest (retries + 1) none
            ⟨out.result, out.calls + 1, d * 2 ^ retries :: out.sleeps⟩
        | some b0, _ =>
          if retries + 1 = m then
            if isSentinel b0 then ⟨RRes.exits 1, 1, []⟩ else ⟨RRes.retNone, 1, []⟩
          else
            let out := retryRun d m rest (retries + 1) (some b0)
            ⟨out.result, out.calls + 1, d * 2 ^ retries :: out.sleeps⟩
      | Attempt.genExc =>
        if retries + 1 = m then ⟨RRes.retNone, 1, []⟩
        else
          let out := retryRun d m rest (retries + 1) lastResp
          ⟨out.result, out.calls + 1, d * 2 ^ retries :: out.sleeps⟩
    else ⟨RRes.retNone, 0, []⟩

/-- retry_request with its default parameters max_retries=3, initial_delay=1,
as applied by every decorated function in the repository. -/
def retry_request (attempts : List Attempt) : RunOut :=
  retryRun 1 3 attempts 0 none

/-- An attempt behaviour that fails non-fatally: a non-200 or unparseable-200
response without the sentinel, a returned None, a RequestException whose
recoverable body, if any, is not the sentinel, or a generic exception. -/
def nonFatalFail : Attempt → Bool
  | Attempt.resp status body _ => !isSentinel body && (!(status == 200) || (body == Body.parseFail))
  | Attempt.value isNone => isNone
  | Attempt.reqExc respBody => respBody.all fun b => !isSentinel b
  | Attempt.genExc => true

/- ===== StopOffset: the per-stream stop rank (multicatch.py lines 43, 55,
86-91; catchgraderank.py lines 36, 166-171) ===== -/

/-- The stop rank value: none models the initial float inf. -/
abbrev StopRank := Option Nat

/-- target_rank < stop, with stop possibly infinity. -/
def stopLtNat (r : Nat) (s : StopRank) : Bool :=
  match s with
  | none => true
  | some v => r < v

/-- target_rank > stop, with stop possibly infinity
(the guard at multicatch.py line 63 and catchgraderank.py line 144). -/
def stopGtNat (r : Nat) (s : StopRank) : Bool :=
  match s with
  | none => false
  | some v => v < r

/-- The lock-protected update at multicatch.py lines 88-91 and
catchgraderank.py lines 168-171: only a strictly smaller empty-page rank is
recorded. -/
def update_stop (s : StopRank) (r : Nat) : StopRank :=
  if stopLtNat r s then some r else s

/-- Order on stop ranks, with none as the top element. -/
def stopLe (a b : StopRank) : Bool :=
  match a, b with
  | _, none => true
  | none, some _ => false
  | some x, some y => x ≤ y

/-- Minimum of two stop ranks. -/
def stopMin (a b : StopRank) : StopRank :=
  match a, b with
  | none, b => b
  | some x, none => some x
  | some x, some y => some (min x y)

/- ===== Per-stream probe trace: interleavings of the lock-protected regions
of fetch_ranking for one stream ===== -/

/-- One atomic action on the shared per-stream state: emptyObs r = a probe
observed an empty page at rank r and ran the locked min-update; probeStart r
= a probe at rank r began executing and evaluated the guard at
multicatch.py line 63 (catchgraderank.py line 144). -/
inductive Ev where
  | emptyObs : Nat → Ev
  | probeStart : Nat → Ev
deriving DecidableEq, Repr

/-- Shared state of one ranking stream plus the log of ranks for which a
network call was actually issued. -/
structure ProbeState where
  stop : StopRank
  calls : List Nat
deriving DecidableEq, Repr

/-- Effect of one atomic action: an empty-page observation lowers the stop
rank monotonically; a starting probe issues its network call only when its
rank does not exceed the current stop rank, otherwise it short-circuits. -/
def stepEv (st : ProbeState) : Ev → ProbeState
  | Ev.emptyObs r => ⟨update_stop st.stop r, st.calls⟩
  | Ev.probeStart r =>
    if stopGtNat r st.stop then st else ⟨st.stop, st.calls ++ [r]⟩

/-- Run a trace of atomic actions from the initial state: stop rank at
infinity, no calls issued. -/
def runTrace (evs : List Ev) : ProbeState :=
  evs.foldl stepEv ⟨none, []⟩

/-- A submitted future in the completion loop of collect_data:
its target rank, whether it already ran, whether it was cancelled. -/
structure Fut where
  rank : Nat
  done : Bool
  cancelled : Bool
deriving DecidableEq, Repr

/-- The cancellation sweep at multicatch.py lines 272-275 and
catchgraderank.py lines 240-243: every not-yet-done future whose rank
exceeds the current stop rank is cancelled. -/
def cancelBeyond (stop : StopRank) (fs : List Fut) : List Fut :=
  fs.map fun f =>
    if !f.done && stopGtNat f.rank stop then ⟨f.rank, f.done, true⟩ else f

/- ===== One page probe: RankingDataCollector.fetch_ranking body
(multicatch.py lines 60-97) ===== -/

/-- A raw ranking entry as read from a page: the identity key (the id key at
multicatch.py line 282, the player_id key at catchgraderank.py line 249),
rank and point. -/
structure RawPlayer where
  pid : String
  rank : Nat
  point : Int
deriving DecidableEq, Repr

/-- A parsed ranking response: HTTP status, optional error_code, and the
point_rankings list (empty when the key is missing, per the get default). -/
structure RankResp where
  status : Nat
  error_code : Option String
  point_rankings : List RawPlayer
deriving DecidableEq, Repr

/-- Outcome of one execution of the fetch_ranking body: whether sys.exit was
reached, whether the network call was issued, the returned player list, and
the stop rank after the call. -/
structure FetchResult where
  exited : Bool
  networkCalled : Bool
  returned : List RawPlayer
  newStop : StopRank
deriving DecidableEq, Repr

/-- The body of fetch_ranking (multicatch.py lines 60-97) given the current
stream stop rank and the network response the request would receive: guard
against the stop rank, sentinel exit on a 200 body, empty-page min-update,
and the non-200 fallthrough that hands the response to the retry decorator. -/
def fetch_ranking (s : StopRank) (target_rank : Nat) (resp : RankResp) : FetchResult :=
  if stopGtNat target_rank s then ⟨false, false, [], s⟩
  else if resp.status = 200 then
    if resp.error_code = some "21001_210102" then ⟨true, true, [], s⟩
    else
      ⟨false, true, resp.point_rankings,
        if resp.point_rankings.isEmpty then update_stop s target_rank else s⟩
  else ⟨false, true, [], s⟩

/- ===== Phase-1 accumulation ===== -/

/-- The per-player record built in phase 1 (multicatch.py lines 281-285,
catchgraderank.py lines 253-259). -/
structure Summary where
  player_id : String
  rank : Nat
  point : Int
deriving DecidableEq, Repr

/-- Conversion of a raw page entry to the stored summary. -/
def toSummary (p : RawPlayer) : Summary := ⟨p.pid, p.rank, p.point⟩

/-- Phase-1 accumulation of RankingDataCollector.collect_data
(multicatch.py lines 269-285): every entry of every completed page is
appended; there is no membership check. -/
def accumulate_multicatch (pages : List (List RawPlayer)) : List Summary :=
  pages.foldl (fun acc page => acc ++ page.map toSummary) []

/-- One step of the phase-1 accumulation of
GradeRankingDataCollector.collect_data (catchgraderank.py lines 248-259):
an entry is kept only when its player_id is truthy and not yet seen. -/
def gradeStep (st : List Summary × List String) (p : RawPlayer) :
    List Summary × List String :=
  if p.pid ≠ "" ∧ p.pid ∉ st.2 then (st.1 ++ [toSummary p], st.2 ++ [p.pid])
  else st

/-- Phase-1 accumulation of GradeRankingDataCollector.collect_data over the
completed pages, with the unique_player_ids set threaded through. -/
def accumulate_grade (pages : List (List RawPlayer)) : List Summary :=
  (pages.foldl (fun st page => page.foldl gradeStep st) ([], [])).1

/- ===== Player profile: utils.fetch_player_profile (lines 224-295) and
config.CHARACTER_NAMES (lines 330-342) ===== -/

/-- One element of profile fan_level_list; both keys are read with get, so
either may be missing. -/
structure FanInfo where
  character_id : Option Nat
  d_season_fan_level : Option Int
deriving DecidableEq, Repr

/-- The keys of config.CHARACTER_NAMES in declaration order
(config.py lines 330-342). -/
def CHARACTER_IDS : List Nat :=
  [1031, 1032, 1033, 1021, 1022, 1023, 1041, 1042, 1043, 1051, 1052]

/-- character_levels initialisation (utils.py line 271): every known
character id maps to level 0. -/
def initLevels : List (Nat × Int) := CHARACTER_IDS.map fun c => (c, 0)

/-- One iteration of the update loop (utils.py lines 274-278): a fan entry
updates the level of its character id only when that id is among the dict
keys; a missing character_id key (Python None) never matches. -/
def updateLevels (levels : List (Nat × Int)) (f : FanInfo) : List (Nat × Int) :=
  match f.character_id with
  | none => levels
  | some cid =>
    if cid ∈ levels.map Prod.fst then
      levels.map fun cv => if cv.1 = cid then (cv.1, f.d_season_fan_level.getD 0) else cv
    else levels

/-- The character_levels dict after the whole fan_level_list is processed. -/
def character_levels (fans : List FanInfo) : List (Nat × Int) :=
  fans.foldl updateLevels initLevels

/-- The level stored for one character id. -/
def levelAt (fans : List FanInfo) (cid : Nat) : Int :=
  ((character_levels fans).lookup cid).getD 0

/-- total_level (utils.py line 281): sum of all stored levels. -/
def total_level (fans : List FanInfo) : Int :=
  ((character_levels fans).map Prod.snd).sum

/-- The excluded character ids of the 104 aggregate (utils.py line 284). -/
def EXCLUDED_104 : List Nat := [1051, 1052]

/-- total_104_level (utils.py line 284): sum of the stored levels whose
character id is not excluded. -/
def total_104_level (fans : List FanInfo) : Int :=
  (((character_levels fans).filter fun cv => decide (cv.1 ∉ EXCLUDED_104)).map Prod.snd).sum

/-- The profile_info fields of a successful profile response that
fetch_player_profile reads. -/
structure ProfileInfo where
  player_name : String
  fan_level_list : List FanInfo
deriving DecidableEq, Repr

/-- The per-player output record of fetch_player_profile plus the A/B/C
columns merged in by RankingDataCollector.collect_data: season_total is the
value stored under the quarter-level key, season_total_104 the one under the
104 quarter-level key; the six option fields are the A/B/C score and rank
columns, none standing for the Python None written when the player is
missing from that sub-ladder. -/
structure PlayerData where
  player_id : String
  player_name : String
  rank : Nat
  point : Int
  levels : List (Nat × Int)
  season_total : Int
  season_total_104 : Int
  aScore : Option Int
  aRank : Option Nat
  bScore : Option Int
  bRank : Option Nat
  cScore : Option Int
  cRank : Option Nat
deriving DecidableEq, Repr

/-- utils.fetch_player_profile (lines 224-295) on the success path, with the
profile endpoint abstracted as an oracle from player id to an optional
profile: when the oracle is absent (retry exhausted, line 295 returns None)
the function yields none; otherwise it builds the record of lines 251-294
with the A/B/C columns not yet set. -/
def fetch_player_profile_m (server : String → Option ProfileInfo) (p : Summary) :
    Option PlayerData :=
  match server p.player_id with
  | none => none
  | some prof =>
    some ⟨p.player_id, prof.player_name, p.rank, p.point,
          character_levels prof.fan_level_list,
          total_level prof.fan_level_list,
          total_104_level prof.fan_level_list,
          none, none, none, none, none, none⟩

/-- The player_maps dict comprehension (multicatch.py lines 322-330): the
value bound to a key is the point and rank of the last entry with that
player id, none when the id does not occur. -/
def build_player_map (l : List Summary) (key : String) : Option (Int × Nat) :=
  (l.reverse.find? fun q => q.player_id == key).map fun q => (q.point, q.rank)

/-- The A/B/C merge of multicatch.py lines 341-351: present ids copy point
and rank, absent ids store None. -/
def merge_abc (mA mB mC : String → Option (Int × Nat)) (dd : PlayerData) : PlayerData :=
  { dd with
    aScore := (mA dd.player_id).map Prod.fst
    aRank := (mA dd.player_id).map Prod.snd
    bScore := (mB dd.player_id).map Prod.fst
    bRank := (mB dd.player_id).map Prod.snd
    cScore := (mC dd.player_id).map Prod.fst
    cRank := (mC dd.player_id).map Prod.snd }

/-- Phase 2 of RankingDataCollector.collect_data (lines 332-352): the
detail records are produced in completion order, failed fetches are
dropped, successful fetches get the A/B/C columns merged in. -/
def detail_phase (server : String → Option ProfileInfo)
    (mA mB mC : String → Option (Int × Nat)) (order : List Summary) : List PlayerData :=
  order.filterMap fun p => (fetch_player_profile_m server p).map (merge_abc mA mB mC)

/-- The observable outcome of the pipeline after phase 1: how many
per-entity detail fetch units were submitted and the final record list. -/
structure PipelineOut where
  detail_calls : Nat
  records : List PlayerData
deriving DecidableEq, Repr

/-- RankingDataCollector.collect_data after phase 1 (lines 296-352): when no
stream produced any entry the function returns before phase 2 (lines
297-315); otherwise phase 2 submits one fetch per entry of the total
stream. -/
def multicatch_after_harvest (total : List Summary) (others : List (List Summary))
    (server : String → Option ProfileInfo) (mA mB mC : String → Option (Int × Nat)) :
    PipelineOut :=
  if (total :: others).any (fun l => !l.isEmpty) then
    ⟨total.length, detail_phase server mA mB mC total⟩
  else ⟨0, []⟩

/-- Outcome of GradeRankingDataCollector.collect_data after phase 1:
crash k = the run ends with an uncaught pandas KeyError on column key k;
done out = the run completes normally with the given pipeline outcome. -/
inductive GradeOutcome where
  | crash : String → GradeOutcome
  | done : PipelineOut → GradeOutcome
deriving DecidableEq, Repr

/-- GradeRankingDataCollector.collect_data after phase 1 (catchgraderank.py
lines 261-298): line 262 builds df1 from the phase-1 players and line 265
sorts it by the rank column. When phase 1 produced no players, the frame
built from the empty list has no columns at all and sort_values raises
KeyError on the rank key, so the run crashes before ever reaching the
emptiness check of lines 267-278 — the skip-and-return branch at lines
276-278 is unreachable. With at least one player every row dict carries the
rank key, the sort succeeds, the frame is nonempty, and phase 2 submits one
fetch per player (lines 280-298). -/
def grade_after_harvest (players : List Summary) (server : String → Option ProfileInfo) :
    GradeOutcome :=
  if players.isEmpty then GradeOutcome.crash "rank"
  else GradeOutcome.done ⟨players.length, players.filterMap (fetch_player_profile_m server)⟩

/-- The concrete attempt trace of the C1 counterexample: a non-200 response
with a parseable non-sentinel body, then a RequestException whose
recoverable body is the sentinel, then a generic exception. -/
def c1AttemptList : List Attempt :=
  [Attempt.resp 500 (Body.dict none) true,
   Attempt.reqExc (some (Body.dict (some "21001_210102"))),
   Attempt.genExc]

/- ===== Helper lemmas on the stop rank ===== -/

theorem update_stop_le (s : StopRank) (r : Nat) : stopLe (update_stop s r) s = true := by
  cases s with
  | none => simp [update_stop, stopLtNat, stopLe]
  | some v =>
    simp only [update_stop, stopLtNat]
    by_cases h : r < v
    · simp [h, stopLe, Nat.le_of_lt h]
    · simp [h, stopLe]

theorem update_stop_le_obs (s : StopRank) (r : Nat) :
    stopLe (update_stop s r) (some r) = true := by
  cases s with
  | none => simp [update_stop, stopLtNat, stopLe]
  | some v =>
    simp only [update_stop, stopLtNat]
    by_cases h : r < v
    · simp [h, stopLe]
    · simp [h, stopLe, Nat.le_of_not_lt h]

theorem stopLe_trans {a b c : StopRank} (hab : stopLe a b = true) (hbc : stopLe b c = true) :
    stopLe a c = true := by
  cases a <;> cases b <;> cases c <;> simp_all [stopLe]
  omega

theorem foldl_update_stop_le (obs : List Nat) :
    ∀ s : StopRank, stopLe (List.foldl update_stop s obs) s = true := by
  induction obs with
  | nil => intro s; cases s <;> simp [stopLe]
  | cons r obs ih =>
    intro s
    exact stopLe_trans (ih (update_stop s r)) (update_stop_le s r)

theorem update_stop_eq_min (s : StopRank) (r : Nat) :
    update_stop s r = stopMin s (some r) := by
  cases s with
  | none => simp [update_stop, stopLtNat, stopMin]
  | some v =>
    simp only [update_stop, stopLtNat, stopMin]
    by_cases h : r < v
    · have hm : min v r = r := Nat.min_eq_right (Nat.le_of_lt h)
      simp [h, hm]
    · have hm : min v r = v := Nat.min_eq_left (Nat.le_of_not_lt h)
      simp [h, hm]

theorem stopLe_refl (a : StopRank) : stopLe a a = true := by
  cases a <;> simp [stopLe]

theorem foldl_update_eq_foldl_min (obs : List Nat) :
    ∀ s : StopRank,
      List.foldl update_stop s obs = List.foldl (fun a r => stopMin a (some r)) s obs := by
  induction obs with
  | nil => intro s; rfl
  | cons r obs ih =>
    intro s
    rw [List.foldl_cons, List.foldl_cons, update_stop_eq_min, ih]

/-- Claim C2: for every stream and every interleaving of concurrent probe
completions, the stop offset starts at infinity (none) and is monotonically
non-increasing: each locked update only lowers it, any later fold prefix is
at most any earlier one, the order of two concurrent empty-page observations
does not matter and the smaller offset wins, and in general the stop offset
equals the min-fold of all observed empty-page offsets. -/
theorem stop_offset_monotone_min_wins :
    (∀ (s : StopRank) (r : Nat), stopLe (update_stop s r) s = true) ∧
    (∀ (obs pre suf : List Nat), obs = pre ++ suf →
      stopLe (List.foldl update_stop none obs) (List.foldl update_stop none pre) = true) ∧
    (∀ a b : Nat,
      List.foldl update_stop none [a, b] = List.foldl update_stop none [b, a] ∧
      List.foldl update_stop none [a, b] = some (min a b)) ∧
    (∀ (s : StopRank) (r : Nat), update_stop s r = stopMin s (some r)) ∧
    (∀ obs : List Nat,
      List.foldl update_stop none obs
        = List.foldl (fun a r => stopMin a (some r)) none obs) := by
  refine ⟨update_stop_le, ?_, ?_, update_stop_eq_min, fun obs => foldl_update_eq_foldl_min obs none⟩
  · intro obs pre suf hob
    subst hob
    rw [List.foldl_append]
    exact foldl_update_stop_le suf _
  · intro a b
    constructor
    · simp only [List.foldl, update_stop_eq_min, stopMin]
      rw [Nat.min_comm]
    · simp [List.foldl, update_stop_eq_min, stopMin]

/-- Witness for C2 at a concrete interleaving. -/
theorem stop_offset_monotone_min_wins_witness :
    stopLe (List.foldl update_stop none [5, 3]) (List.foldl update_stop none [5]) = true :=
  stop_offset_monotone_min_wins.2.1 [5, 3] [5] [3] rfl

/- ===== Helper lemmas on probe traces ===== -/

theorem stepEv_stop_le (st : ProbeState) (e : Ev) : stopLe (stepEv st e).stop st.stop = true := by
  cases e with
  | emptyObs r => exact update_stop_le st.stop r
  | probeStart r =>
    simp only [stepEv]
    by_cases h : stopGtNat r st.stop = true
    · simp only [h, if_true]
      exact stopLe_refl st.stop
    · simp only [h, if_false]
      exact stopLe_refl st.stop

theorem foldl_stepEv_stop_le (evs : List Ev) :
    ∀ st : ProbeState, stopLe (List.foldl stepEv st evs).stop st.stop = true := by
  induction evs with
  | nil => intro st; exact stopLe_refl st.stop
  | cons e evs ih =>
    intro st
    exact stopLe_trans (ih (stepEv st e)) (stepEv_stop_le st e)

theorem stopGtNat_of_le_lt {s : StopRank} {R r : Nat}
    (hle : stopLe s (some R) = true) (hlt : R < r) : stopGtNat r s = true := by
  cases s with
  | none => simp [stopLe] at hle
  | some v =>
    simp only [stopLe, decide_eq_true_eq] at hle
    simp only [stopGtNat, decide_eq_true_eq]
    omega

/-- Claim C3: once an empty page has been observed at offset R for a stream,
a probe at a strictly greater offset that begins after the observation
changes nothing: it issues no network call and contributes no call-log entry
(first conjunct, over every interleaving of lock-protected actions); the
fetch_ranking guard makes any probe beyond the stop rank return the empty
list without a network call (second conjunct); and the completion-loop sweep
cancels every pending future whose rank exceeds the stop rank (third
conjunct). -/
theorem empty_page_short_circuits_probes :
    (∀ (t1 t2 : List Ev) (R r : Nat), R < r →
      runTrace (t1 ++ Ev.emptyObs R :: (t2 ++ [Ev.probeStart r]))
        = runTrace (t1 ++ Ev.emptyObs R :: t2)) ∧
    (∀ (s : StopRank) (r : Nat) (resp : RankResp), stopGtNat r s = true →
      fetch_ranking s r resp = ⟨false, false, [], s⟩) ∧
    (∀ (stop : StopRank) (fs : List Fut) (f : Fut),
      f ∈ fs → f.done = false → stopGtNat f.rank stop = true →
      Fut.mk f.rank f.done true ∈ cancelBeyond stop fs) := by
  refine ⟨?_, ?_, ?_⟩
  · intro t1 t2 R r hlt
    have hassoc : t1 ++ Ev.emptyObs R :: (t2 ++ [Ev.probeStart r])
        = (t1 ++ Ev.emptyObs R :: t2) ++ [Ev.probeStart r] := by
      simp
    rw [hassoc]
    unfold runTrace
    rw [List.foldl_append]
    set st := List.foldl stepEv (⟨none, []⟩ : ProbeState) (t1 ++ Ev.emptyObs R :: t2) with hst
    have hstop : stopLe st.stop (some R) = true := by
      rw [hst, List.foldl_append, List.foldl_cons]
      have h1 : stopLe (stepEv (List.foldl stepEv ⟨none, []⟩ t1) (Ev.emptyObs R)).stop
          (some R) = true := update_stop_le_obs _ R
      exact stopLe_trans (foldl_stepEv_stop_le t2 _) h1
    have hguard : stopGtNat r st.stop = true := stopGtNat_of_le_lt hstop hlt
    simp [stepEv, hguard]
  · intro s r resp hguard
    simp [fetch_ranking, hguard]
  · intro stop fs f hmem hdone hguard
    have himg : (if !f.done && stopGtNat f.rank stop then
        (⟨f.rank, f.done, true⟩ : Fut) else f) ∈ cancelBeyond stop fs :=
      List.mem_map_of_mem _ hmem
    simpa [hdone, hguard] using himg

/-- Witness for C3 at a concrete trace, guard state and future list. -/
theorem empty_page_short_circuits_probes_witness :
    runTrace ([] ++ Ev.emptyObs 5 :: ([] ++ [Ev.probeStart 6]))
      = runTrace ([] ++ Ev.emptyObs 5 :: []) :=
  empty_page_short_circuits_probes.1 [] [] 5 6 (by decide)

/- ===== C1: the fatal sentinel ===== -/

/-- Claim C1 counterexample: the second attempt is an exception path whose
recoverable body is the sentinel dict, yet because the first attempt already
recorded a failing response text, the wrapper never parses that body: the
run performs all three calls and returns None instead of terminating. -/
theorem sentinel_missed_on_late_exception :
    c1AttemptList[1]? = some (Attempt.reqExc (some (Body.dict (some "21001_210102")))) ∧
    isSentinel (Body.dict (some "21001_210102")) = true ∧
    retry_request c1AttemptList = ⟨RRes.retNone, 3, [1, 2]⟩ ∧
    ¬ (retry_request c1AttemptList).result = RRes.exits 1 := by
  refine ⟨by decide, by decide, by decide, by decide⟩

/-- Claim C1 (amended): a sentinel body inside any Response handled by the
wrapper terminates the process by sys.exit(1) regardless of the HTTP status,
consuming no further attempts and sleeping no further; a sentinel body on an
exception path terminates only when no earlier failing response text was
recorded (last_response falsy); and the fetch_ranking body itself exits on a
sentinel 200 body before dispatching anything further. -/
theorem sentinel_terminates_process (d m status retries : Nat) (tn : Bool)
    (rest : List Attempt) (lastResp : Option Body) (b : Body)
    (hr : retries < m) (hs : isSentinel b = true) :
    retryRun d m (Attempt.resp status b tn :: rest) retries lastResp = ⟨RRes.exits 1, 1, []⟩ ∧
    retryRun d m (Attempt.reqExc (some b) :: rest) retries none = ⟨RRes.exits 1, 1, []⟩ ∧
    (∀ (s : StopRank) (r : Nat) (ps : List RawPlayer), stopGtNat r s = false →
      fetch_ranking s r ⟨200, some "21001_210102", ps⟩ = ⟨true, true, [], s⟩) := by
  refine ⟨?_, ?_, ?_⟩
  · simp [retryRun, hr, hs]
  · simp [retryRun, hr, hs]
  · intro s r ps hguard
    simp [fetch_ranking, hguard]

/-- Witness for the amended C1 at a concrete non-200 sentinel response. -/
theorem sentinel_terminates_process_witness :
    retryRun 1 3 [Attempt.resp 500 (Body.dict (some "21001_210102")) true] 0 none
      = ⟨RRes.exits 1, 1, []⟩ :=
  (sentinel_terminates_process 1 3 500 0 true [] none (Body.dict (some "21001_210102"))
    (by decide) (by decide)).1

/- ===== C4: deduplication ===== -/

/-- Claim C4 counterexample: two pages both containing the identity key K
leave two summaries for K in the phase-1 output of
RankingDataCollector.collect_data, not one: that accumulation has no
membership check. -/
theorem multicatch_keeps_duplicate_keys :
    (accumulate_multicatch [[⟨"K", 1, 10⟩], [⟨"K", 27, 10⟩]]).countP
        (fun s => s.player_id == "K") = 2 ∧
    ¬ (accumulate_multicatch [[⟨"K", 1, 10⟩], [⟨"K", 27, 10⟩]]).countP
        (fun s => s.player_id == "K") = 1 := by
  refine ⟨by decide, by decide⟩

theorem gradeStep_eq (out : List Summary) (seen : List String) (p : RawPlayer) :
    gradeStep (out, seen) p =
      if p.pid ≠ "" ∧ p.pid ∉ seen then (out ++ [toSummary p], seen ++ [p.pid])
      else (out, seen) := rfl

theorem filter_pid_eq_nil {K : String} (out : List Summary)
    (h : K ∉ out.map Summary.player_id) :
    out.filter (fun s => s.player_id == K) = [] := by
  induction out with
  | nil => rfl
  | cons s out ih =>
    simp only [List.map_cons, List.mem_cons] at h
    push_neg at h
    have hne : (s.player_id == K) = false := by
      simp only [beq_eq_false_iff_ne, ne_eq]
      exact fun he => h.1 he.symm
    simp only [List.filter_cons, hne]
    exact ih h.2

theorem grade_filter_after_seen (K : String) (l : List RawPlayer) :
    ∀ (out : List Summary) (seen : List String),
      seen = out.map Summary.player_id → K ∈ seen →
      (List.foldl gradeStep (out, seen) l).1.filter (fun s => s.player_id == K)
        = out.filter (fun s => s.player_id == K) := by
  induction l with
  | nil => intro out seen hseen hK; rfl
  | cons p l ih =>
    intro out seen hseen hK
    simp only [List.foldl_cons, gradeStep_eq]
    by_cases hcond : p.pid ≠ "" ∧ p.pid ∉ seen
    · rw [if_pos hcond]
      have hpK : p.pid ≠ K := fun he => hcond.2 (he ▸ hK)
      have hseen2 : seen ++ [p.pid] = (out ++ [toSummary p]).map Summary.player_id := by
        simp [hseen, toSummary]
      rw [ih (out ++ [toSummary p]) (seen ++ [p.pid]) hseen2 (by simp [hK])]
      have hne : ((toSummary p).player_id == K) = false := by
        simp only [toSummary, beq_eq_false_iff_ne, ne_eq]
        exact hpK
      simp [List.filter_append, hne]
    · rw [if_neg hcond]
      exact ih out seen hseen hK

theorem grade_filter_first_occurrence (K : String) (hK : K ≠ "") (l : List RawPlayer) :
    ∀ (out : List Summary) (seen : List String),
      seen = out.map Summary.player_id → K ∉ seen →
      (List.foldl gradeStep (out, seen) l).1.filter (fun s => s.player_id == K)
        = match l.find? (fun p => p.pid == K) with
          | some p => [toSummary p]
          | none => [] := by
  induction l with
  | nil =>
    intro out seen hseen hKn
    simp only [List.foldl_nil, List.find?_nil]
    exact filter_pid_eq_nil out (hseen ▸ hKn)
  | cons p l ih =>
    intro out seen hseen hKn
    simp only [List.foldl_cons, gradeStep_eq]
    by_cases hpid : p.pid = K
    · have hcond : p.pid ≠ "" ∧ p.pid ∉ seen := by
        constructor
        · rw [hpid]; exact hK
        · rw [hpid]; exact hKn
      rw [if_pos hcond]
      have hfind : (p :: l).find? (fun q => q.pid == K) = some p := by
        simp [List.find?_cons, hpid]
      rw [hfind]
      have hseen2 : seen ++ [p.pid] = (out ++ [toSummary p]).map Summary.player_id := by
        simp [hseen, toSummary]
      rw [grade_filter_after_seen K l (out ++ [toSummary p]) (seen ++ [p.pid]) hseen2
        (by simp [hpid])]
      have hbeq : ((toSummary p).player_id == K) = true := by
        simp [toSummary, hpid]
      rw [List.filter_append]
      rw [filter_pid_eq_nil out (hseen ▸ hKn)]
      simp [hbeq]
    · have hfind : (p :: l).find? (fun q => q.pid == K) = l.find? (fun q => q.pid == K) := by
        have : (p.pid == K) = false := by
          simp only [beq_eq_false_iff_ne, ne_eq]; exact hpid
        simp [List.find?_cons, this]
      rw [hfind]
      by_cases hcond : p.pid ≠ "" ∧ p.pid ∉ seen
      · rw [if_pos hcond]
        have hseen2 : seen ++ [p.pid] = (out ++ [toSummary p]).map Summary.player_id := by
          simp [hseen, toSummary]
        have hKn2 : K ∉ seen ++ [p.pid] := by
          simp only [List.mem_append, List.mem_singleton]
          push_neg
          exact ⟨hKn, fun he => hpid he.symm⟩
        exact ih (out ++ [toSummary p]) (seen ++ [p.pid]) hseen2 hKn2
      · rw [if_neg hcond]
        exact ih out seen hseen hKn

/-- Claim C4 (amended): first-occurrence deduplication by identity key holds
for the grade-ranking harvester (its phase-1 output holds exactly the
first-recorded summary for every nonempty key it ever sees), while the
multi-stream ranking harvester appends every occurrence and keeps
duplicates. -/
theorem grade_dedup_first_wins (pages : List (List RawPlayer)) (K : String) (hK : K ≠ "") :
    (accumulate_grade pages).filter (fun s => s.player_id == K)
      = match pages.flatten.find? (fun p => p.pid == K) with
        | some p => [toSummary p]
        | none => [] := by
  unfold accumulate_grade
  have hjoin : List.foldl (fun st page => List.foldl gradeStep st page)
      (([], []) : List Summary × List String) pages
      = List.foldl gradeStep ([], []) pages.flatten := by
    rw [List.foldl_flatten]
  rw [hjoin]
  exact grade_filter_first_occurrence K hK pages.flatten [] [] rfl (List.not_mem_nil K)

/-- Witness for the amended C4: the duplicate key keeps its first-recorded
summary only. -/
theorem grade_dedup_first_wins_witness :
    (accumulate_grade [[⟨"K", 1, 10⟩], [⟨"K", 27, 11⟩]]).filter (fun s => s.player_id == "K")
      = match ([[(⟨"K", 1, 10⟩ : RawPlayer)], [⟨"K", 27, 11⟩]].flatten.find?
          (fun p => p.pid == "K")) with
        | some p => [toSummary p]
        | none => [] :=
  grade_dedup_first_wins [[⟨"K", 1, 10⟩], [⟨"K", 27, 11⟩]] "K" (by decide)

/- ===== C5: retry bound, backoff, absence ===== -/

theorem retryRun_calls_le (d m : Nat) (l : List Attempt) :
    ∀ (retries : Nat) (lastResp : Option Body),
      (retryRun d m l retries lastResp).calls ≤ m - retries := by
  induction l with
  | nil => intro retries lastResp; simp [retryRun]
  | cons a rest ih =>
    intro retries lastResp
    by_cases hr : retries < m
    · have hone : 1 ≤ m - retries := by omega
      have hrec : ∀ last2 : Option Body,
          (retryRun d m rest (retries + 1) last2).calls + 1 ≤ m - retries := by
        intro last2
        have h2 := ih (retries + 1) last2
        omega
      unfold retryRun
      rw [if_pos hr]
      cases a <;> dsimp only <;> (repeat' split) <;> first | exact hone | exact hrec _
    · unfold retryRun
      rw [if_neg hr]
      exact Nat.zero_le _

theorem retry_step_exhaust (d m : Nat) (a : Attempt) (rest : List Attempt) (retries : Nat)
    (lastResp : Option Body) (ha : nonFatalFail a = true)
    (hlast : lastResp.all (fun b => !isSentinel b) = true)
    (hr : retries < m) (hm : retries + 1 = m) :
    retryRun d m (a :: rest) retries lastResp = ⟨RRes.retNone, 1, []⟩ := by
  unfold retryRun
  rw [if_pos hr]
  cases a with
  | resp status body tn =>
    simp only [nonFatalFail, Bool.and_eq_true, Bool.not_eq_true'] at ha
    obtain ⟨hsent, hrest⟩ := ha
    by_cases h200 : status = 200
    · have hpf : body = Body.parseFail := by
        rcases Bool.or_eq_true_iff.mp hrest with h | h
        · exfalso
          rw [Bool.not_eq_true'] at h
          exact absurd (beq_iff_eq.mpr h200) (by simp [h])
        · exact beq_iff_eq.mp h
      subst hpf
      cases lastResp with
      | none => simp [hsent, h200, hm]
      | some b =>
        have hb : isSentinel b = false := by
          simpa [Option.all, Bool.not_eq_true'] using hlast
        simp [hsent, h200, hm, hb]
    · cases tn <;> simp [hsent, h200, hm]
  | value isN =>
    simp only [nonFatalFail] at ha
    simp [ha, hm]
  | reqExc rb =>
    cases lastResp with
    | none =>
      cases rb with
      | none => simp [hm]
      | some b =>
        have hb : isSentinel b = false := by
          simpa [nonFatalFail, Option.all, Bool.not_eq_true'] using ha
        simp [hb, hm]
    | some b0 =>
      have hb0 : isSentinel b0 = false := by
        simpa [Option.all, Bool.not_eq_true'] using hlast
      cases rb <;> simp [hb0, hm]
  | genExc => simp [hm]

theorem retry_step_fail (d m : Nat) (a : Attempt) (rest : List Attempt) (retries : Nat)
    (lastResp : Option Body) (ha : nonFatalFail a = true)
    (hlast : lastResp.all (fun b => !isSentinel b) = true)
    (hr : retries < m) (hm : retries + 1 ≠ m) :
    ∃ last2 : Option Body, last2.all (fun b => !isSentinel b) = true ∧
      retryRun d m (a :: rest) retries lastResp =
        ⟨(retryRun d m rest (retries + 1) last2).result,
         (retryRun d m rest (retries + 1) last2).calls + 1,
         d * 2 ^ retries :: (retryRun d m rest (retries + 1) last2).sleeps⟩ := by
  cases a with
  | resp status body tn =>
    simp only [nonFatalFail, Bool.and_eq_true, Bool.not_eq_true'] at ha
    obtain ⟨hsent, hrest⟩ := ha
    by_cases h200 : status = 200
    · have hpf : body = Body.parseFail := by
        rcases Bool.or_eq_true_iff.mp hrest with h | h
        · exfalso
          rw [Bool.not_eq_true'] at h
          exact absurd (beq_iff_eq.mpr h200) (by simp [h])
        · exact beq_iff_eq.mp h
      subst hpf
      refine ⟨lastResp, hlast, ?_⟩
      conv_lhs => unfold retryRun
      simp [hr, hsent, h200, hm]
    · cases tn with
      | false =>
        refine ⟨none, by simp [Option.all], ?_⟩
        conv_lhs => unfold retryRun
        simp [hr, hsent, h200, hm]
      | true =>
        refine ⟨some body, by simp [Option.all, hsent], ?_⟩
        conv_lhs => unfold retryRun
        simp [hr, hsent, h200, hm]
  | value isN =>
    simp only [nonFatalFail] at ha
    refine ⟨lastResp, hlast, ?_⟩
    conv_lhs => unfold retryRun
    simp [hr, ha, hm]
  | reqExc rb =>
    cases lastResp with
    | none =>
      cases rb with
      | none =>
        refine ⟨none, by simp [Option.all], ?_⟩
        conv_lhs => unfold retryRun
        simp [hr, hm]
      | some b =>
        have hb : isSentinel b = false := by
          simpa [nonFatalFail, Option.all, Bool.not_eq_true'] using ha
        refine ⟨some b, by simp [Option.all, hb], ?_⟩
        conv_lhs => unfold retryRun
        simp [hr, hb, hm]
    | some b0 =>
      refine ⟨some b0, hlast, ?_⟩
      conv_lhs => unfold retryRun
      cases rb <;> simp [hr, hm]
  | genExc =>
    refine ⟨lastResp, hlast, ?_⟩
    conv_lhs => unfold retryRun
    simp [hr, hm]

theorem retry_run_all_fail (d : Nat) (attempts : List Attempt)
    (hall : attempts.all nonFatalFail = true) (hlen : 3 ≤ attempts.length) :
    retryRun d 3 attempts 0 none = ⟨RRes.retNone, 3, [d * 2 ^ 0, d * 2 ^ 1]⟩ := by
  rcases attempts with _ | ⟨a, _ | ⟨b, _ | ⟨c, rest⟩⟩⟩
  · simp at hlen
  · simp at hlen
  · simp at hlen
  · simp only [List.all_cons, Bool.and_eq_true] at hall
    obtain ⟨ha, hb, hc, _⟩ := hall
    obtain ⟨l1, hl1, he1⟩ := retry_step_fail d 3 a (b :: c :: rest) 0 none ha
      (by simp [Option.all]) (by omega) (by omega)
    obtain ⟨l2, hl2, he2⟩ := retry_step_fail d 3 b (c :: rest) 1 l1 hb hl1
      (by omega) (by omega)
    have he3 := retry_step_exhaust d 3 c rest 2 l2 hc hl2 (by omega) (by omega)
    rw [he1, he2, he3]

/-- Claim C5: the retrying transport attempts the wrapped call at most 3
times with the default bound whatever the attempt behaviours; when every
attempt fails non-fatally it makes exactly 3 calls, sleeps
initial_delay times 2 to the attempt minus 1 between consecutive attempts,
and returns the absence value None rather than raising; with the default
initial_delay of 1 the sleeps are 1 and 2 time-units. -/
theorem retry_bounded_backoff_absent :
    (∀ (d : Nat) (attempts : List Attempt) (retries : Nat) (lastResp : Option Body),
      (retryRun d 3 attempts retries lastResp).calls ≤ 3) ∧
    (∀ (d : Nat) (attempts : List Attempt),
      attempts.all nonFatalFail = true → 3 ≤ attempts.length →
      retryRun d 3 attempts 0 none = ⟨RRes.retNone, 3, [d * 2 ^ 0, d * 2 ^ 1]⟩) ∧
    (∀ attempts : List Attempt,
      attempts.all nonFatalFail = true → 3 ≤ attempts.length →
      retry_request attempts = ⟨RRes.retNone, 3, [1, 2]⟩) := by
  refine ⟨?_, ?_, ?_⟩
  · intro d attempts retries lastResp
    have h := retryRun_calls_le d 3 attempts retries lastResp
    omega
  · intro d attempts h1 h2
    exact retry_run_all_fail d attempts h1 h2
  · intro attempts h1 h2
    have h := retry_run_all_fail 1 attempts h1 h2
    simpa [retry_request] using h

/-- Witness for C5 on a concrete all-failing attempt trace. -/
theorem retry_bounded_backoff_absent_witness :
    retry_request [Attempt.genExc, Attempt.genExc, Attempt.genExc]
      = ⟨RRes.retNone, 3, [1, 2]⟩ :=
  retry_bounded_backoff_absent.2.2 [Attempt.genExc, Attempt.genExc, Attempt.genExc]
    (by decide) (by decide)

/- ===== C6: detail fanout bounds ===== -/

theorem fetch_player_profile_m_id {server : String → Option ProfileInfo} {p : Summary}
    {dd : PlayerData} (h : fetch_player_profile_m server p = some dd) :
    dd.player_id = p.player_id := by
  unfold fetch_player_profile_m at h
  cases hs : server p.player_id with
  | none => rw [hs] at h; exact absurd h (by simp)
  | some prof =>
    rw [hs] at h
    have h2 := Option.some.inj h
    rw [← h2]

theorem merge_abc_id (mA mB mC : String → Option (Int × Nat)) (dd : PlayerData) :
    (merge_abc mA mB mC dd).player_id = dd.player_id := rfl

/-- Claim C6: for every input summary list, the detail fanout output has at
most as many records as there are inputs, every output record carries an
identity key occurring among the inputs, and a per-entity fetch that returns
absent only drops that entity: every entity whose fetch succeeds still
yields an output record, whatever the completion order. -/
theorem detail_fanout_size_keys_drop
    (server : String → Option ProfileInfo) (mA mB mC : String → Option (Int × Nat))
    (inputs order : List Summary) (hperm : order.Perm inputs) :
    (detail_phase server mA mB mC order).length ≤ inputs.length ∧
    (∀ dd ∈ detail_phase server mA mB mC order,
      dd.player_id ∈ inputs.map Summary.player_id) ∧
    (∀ p ∈ inputs, (server p.player_id).isSome = true →
      ∃ dd ∈ detail_phase server mA mB mC order, dd.player_id = p.player_id) := by
  refine ⟨?_, ?_, ?_⟩
  · calc (detail_phase server mA mB mC order).length ≤ order.length :=
        List.length_filterMap_le _ _
      _ = inputs.length := hperm.length_eq
  · intro dd hdd
    obtain ⟨p, hp, hf⟩ := List.mem_filterMap.mp hdd
    obtain ⟨d0, hd0, hmg⟩ := Option.map_eq_some'.mp hf
    have hid : dd.player_id = p.player_id := by
      rw [← hmg, merge_abc_id]
      exact fetch_player_profile_m_id hd0
    rw [hid]
    exact List.mem_map_of_mem Summary.player_id (hperm.mem_iff.mp hp)
  · intro p hp hsrv
    obtain ⟨prof, hprof⟩ := Option.isSome_iff_exists.mp hsrv
    have hf : fetch_player_profile_m server p
        = some ⟨p.player_id, prof.player_name, p.rank, p.point,
            character_levels prof.fan_level_list,
            total_level prof.fan_level_list,
            total_104_level prof.fan_level_list,
            none, none, none, none, none, none⟩ := by
      unfold fetch_player_profile_m
      rw [hprof]
    refine ⟨merge_abc mA mB mC
        ⟨p.player_id, prof.player_name, p.rank, p.point,
          character_levels prof.fan_level_list,
          total_level prof.fan_level_list,
          total_104_level prof.fan_level_list,
          none, none, none, none, none, none⟩, ?_, rfl⟩
    exact List.mem_filterMap.mpr ⟨p, hperm.mem_iff.mpr hp, by rw [hf]; rfl⟩

/-- Witness for C6 at a one-element input with an always-successful fetch. -/
theorem detail_fanout_size_keys_drop_witness :
    (detail_phase (fun _ => some ⟨"nm", []⟩) (fun _ => none) (fun _ => none) (fun _ => none)
        [⟨"P", 1, 5⟩]).length ≤ ([⟨"P", 1, 5⟩] : List Summary).length ∧
    (∀ dd ∈ detail_phase (fun _ => some ⟨"nm", []⟩) (fun _ => none) (fun _ => none)
        (fun _ => none) [⟨"P", 1, 5⟩],
      dd.player_id ∈ ([⟨"P", 1, 5⟩] : List Summary).map Summary.player_id) ∧
    (∀ p ∈ ([⟨"P", 1, 5⟩] : List Summary),
      ((fun (_ : String) => some (⟨"nm", []⟩ : ProfileInfo)) p.player_id).isSome = true →
      ∃ dd ∈ detail_phase (fun _ => some ⟨"nm", []⟩) (fun _ => none) (fun _ => none)
          (fun _ => none) [⟨"P", 1, 5⟩], dd.player_id = p.player_id) :=
  detail_fanout_size_keys_drop (fun _ => some ⟨"nm", []⟩) (fun _ => none) (fun _ => none)
    (fun _ => none) [⟨"P", 1, 5⟩] [⟨"P", 1, 5⟩] (List.Perm.refl _)

/- ===== C7: empty phase 1 skips phase 2 ===== -/

/-- Claim C7: for the multi-stream collector, a run whose phase 1 discovers
zero entities skips phase 2 entirely — no per-entity detail fetch unit is
submitted and the result is empty — as claimed. For the grade collector the
claim describes the intent of the unreachable skip branch, but the code
diverges at the failing input: phase 2 is indeed never reached, yet the run
ends in the KeyError raised by sorting the empty no-column frame by the
rank column, before the skip-and-return branch, instead of terminating
normally with an empty result. -/
theorem zero_entities_skip_detail_phase
    (server : String → Option ProfileInfo) (mA mB mC : String → Option (Int × Nat))
    (others : List (List Summary)) (hothers : ∀ l ∈ others, l = []) :
    multicatch_after_harvest [] others server mA mB mC = ⟨0, []⟩ ∧
    grade_after_harvest [] server = GradeOutcome.crash "rank" ∧
    (∀ out : PipelineOut, ¬ grade_after_harvest [] server = GradeOutcome.done out) := by
  refine ⟨?_, rfl, ?_⟩
  · unfold multicatch_after_harvest
    have hany : (([] : List Summary) :: others).any (fun l => !l.isEmpty) = false := by
      rw [List.any_eq_false]
      intro l hl
      rcases List.mem_cons.mp hl with h | h
      · subst h; simp
      · rw [hothers l h]; simp
    simp [hany]
  · intro out h
    exact absurd h (by simp [grade_after_harvest])

/-- Witness for C7 with no sibling streams. -/
theorem zero_entities_skip_detail_phase_witness :
    multicatch_after_harvest [] [] (fun _ => none) (fun _ => none) (fun _ => none)
      (fun _ => none) = ⟨0, []⟩ ∧
    grade_after_harvest [] (fun _ => none) = GradeOutcome.crash "rank" ∧
    (∀ out : PipelineOut, ¬ grade_after_harvest [] (fun _ => none) = GradeOutcome.done out) :=
  zero_entities_skip_detail_phase (fun _ => none) (fun _ => none) (fun _ => none)
    (fun _ => none) [] (by simp)

/- ===== C8: missing sibling data is an explicit absent value ===== -/

theorem build_player_map_none {l : List Summary} {key : String}
    (h : key ∉ l.map Summary.player_id) : build_player_map l key = none := by
  unfold build_player_map
  have hf : l.reverse.find? (fun q => q.player_id == key) = none := by
    rw [List.find?_eq_none]
    intro q hq
    have hne : q.player_id ≠ key := by
      intro he
      exact h (he ▸ List.mem_map_of_mem Summary.player_id (List.mem_reverse.mp hq))
    simp [hne]
  rw [hf]
  rfl

/-- Claim C8: for every merged detail record and each sibling A/B/C stream
taken independently, if the record identity key has no summary in that
sibling stream then the merged record stores the explicit absent value None
for that stream score and rank — whatever the other two streams contain —
and None is distinguishable from the number zero. -/
theorem missing_sibling_absent_not_zero (lA lB lC : List Summary) (dd : PlayerData) :
    (dd.player_id ∉ lA.map Summary.player_id →
      (merge_abc (build_player_map lA) (build_player_map lB) (build_player_map lC) dd).aScore
          = none ∧
      (merge_abc (build_player_map lA) (build_player_map lB) (build_player_map lC) dd).aRank
          = none) ∧
    (dd.player_id ∉ lB.map Summary.player_id →
      (merge_abc (build_player_map lA) (build_player_map lB) (build_player_map lC) dd).bScore
          = none ∧
      (merge_abc (build_player_map lA) (build_player_map lB) (build_player_map lC) dd).bRank
          = none) ∧
    (dd.player_id ∉ lC.map Summary.player_id →
      (merge_abc (build_player_map lA) (build_player_map lB) (build_player_map lC) dd).cScore
          = none ∧
      (merge_abc (build_player_map lA) (build_player_map lB) (build_player_map lC) dd).cRank
          = none) ∧
    (none : Option Int) ≠ some 0 := by
  refine ⟨?_, ?_, ?_, by simp⟩
  · intro hA
    have hA2 := build_player_map_none hA
    unfold merge_abc
    simp [hA2]
  · intro hB
    have hB2 := build_player_map_none hB
    unfold merge_abc
    simp [hB2]
  · intro hC
    have hC2 := build_player_map_none hC
    unfold merge_abc
    simp [hC2]

/-- Witness for C8: the key is present in the B ladder but absent from the
A ladder, and the A fields of the merged record are still None. -/
theorem missing_sibling_absent_not_zero_witness :
    (merge_abc (build_player_map []) (build_player_map [⟨"P", 2, 7⟩]) (build_player_map [])
        ⟨"P", "nm", 1, 5, [], 0, 0, none, none, none, none, none, none⟩).aScore = none ∧
    (merge_abc (build_player_map []) (build_player_map [⟨"P", 2, 7⟩]) (build_player_map [])
        ⟨"P", "nm", 1, 5, [], 0, 0, none, none, none, none, none, none⟩).aRank = none :=
  (missing_sibling_absent_not_zero [] [⟨"P", 2, 7⟩] []
    ⟨"P", "nm", 1, 5, [], 0, 0, none, none, none, none, none, none⟩).1 (by simp)

/- ===== C9 and C10: per-character levels and derived totals ===== -/

theorem updateLevels_keys (levels : List (Nat × Int)) (f : FanInfo) :
    (updateLevels levels f).map Prod.fst = levels.map Prod.fst := by
  unfold updateLevels
  cases f.character_id with
  | none => rfl
  | some cid =>
    dsimp only
    by_cases hmem : cid ∈ levels.map Prod.fst
    · rw [if_pos hmem, List.map_map]
      apply List.map_congr_left
      intro cv _
      by_cases h : cv.1 = cid <;> simp [Function.comp, h]
    · rw [if_neg hmem]

theorem foldl_updateLevels_keys (fans : List FanInfo) :
    ∀ L : List (Nat × Int), (fans.foldl updateLevels L).map Prod.fst = L.map Prod.fst := by
  induction fans with
  | nil => intro L; rfl
  | cons f fans ih =>
    intro L
    rw [List.foldl_cons, ih, updateLevels_keys]

theorem character_levels_keys (fans : List FanInfo) :
    (character_levels fans).map Prod.fst = CHARACTER_IDS := by
  unfold character_levels
  rw [foldl_updateLevels_keys]
  unfold initLevels
  rw [List.map_map]
  have h : (Prod.fst ∘ fun c : Nat => (c, (0 : Int))) = id := by
    funext c; rfl
  rw [h, List.map_id]

theorem assoc_filter_sum (p : Nat → Bool) :
    ∀ (L : List (Nat × Int)) (ids : List Nat), L.map Prod.fst = ids → ids.Nodup →
      ((L.filter fun cv => p cv.1).map Prod.snd).sum
        = ((ids.filter p).map fun c => (L.lookup c).getD 0).sum := by
  intro L
  induction L with
  | nil =>
    intro ids hmap _
    rw [← hmap]
    rfl
  | cons kv L ih =>
    intro ids hmap hnd
    obtain ⟨k, v⟩ := kv
    cases ids with
    | nil => simp at hmap
    | cons k2 ids2 =>
      simp only [List.map_cons, List.cons.injEq] at hmap
      obtain ⟨hk, hmap2⟩ := hmap
      subst hk
      have hnd2 := List.nodup_cons.mp hnd
      have hlookup_k : (((k, v) :: L).lookup k).getD 0 = v := by
        simp [List.lookup]
      have hlem : ((ids2.filter p).map fun c => (((k, v) :: L).lookup c).getD 0)
          = (ids2.filter p).map fun c => (L.lookup c).getD 0 := by
        apply List.map_congr_left
        intro c hc
        have hcm : c ∈ ids2 := List.mem_of_mem_filter hc
        have hck : c ≠ k := fun he => hnd2.1 (he ▸ hcm)
        have hbeq : (c == k) = false := by simp [hck]
        simp [List.lookup, hbeq]
      have hih := ih ids2 hmap2 hnd2.2
      by_cases hp : p k
      · rw [List.filter_cons, List.filter_cons]
        simp only [hp, if_true]
        rw [List.map_cons, List.map_cons, List.sum_cons, List.sum_cons, hlookup_k, hlem, hih]
      · rw [List.filter_cons, List.filter_cons]
        simp only [hp, Bool.false_eq_true, if_false]
        rw [hlem, hih]

theorem total_level_eq_sum (fans : List FanInfo) :
    total_level fans = (CHARACTER_IDS.map (levelAt fans)).sum := by
  unfold total_level levelAt
  have h := assoc_filter_sum (fun _ => true) (character_levels fans) CHARACTER_IDS
    (character_levels_keys fans) (by decide)
  simpa using h

theorem total_104_eq_sum (fans : List FanInfo) :
    total_104_level fans
      = ((CHARACTER_IDS.filter fun c => decide (c ∉ EXCLUDED_104)).map (levelAt fans)).sum := by
  unfold total_104_level levelAt
  exact assoc_filter_sum (fun c => decide (c ∉ EXCLUDED_104)) (character_levels fans)
    CHARACTER_IDS (character_levels_keys fans) (by decide)

/-- Claim C9: for every successfully fetched player profile, the first
derived aggregate equals the sum of the per-category levels over all known
character ids, and the second equals the sum over all known character ids
excluding the fixed exclusion set containing 1051 and 1052. -/
theorem derived_totals_sum_categories
    (server : String → Option ProfileInfo) (p : Summary) (prof : ProfileInfo) (dd : PlayerData)
    (hs : server p.player_id = some prof)
    (hf : fetch_player_profile_m server p = some dd) :
    dd.season_total = (CHARACTER_IDS.map (levelAt prof.fan_level_list)).sum ∧
    dd.season_total_104
      = ((CHARACTER_IDS.filter fun c => decide (c ∉ EXCLUDED_104)).map
          (levelAt prof.fan_level_list)).sum := by
  unfold fetch_player_profile_m at hf
  rw [hs] at hf
  have h2 := Option.some.inj hf
  constructor
  · rw [← h2]
    exact total_level_eq_sum prof.fan_level_list
  · rw [← h2]
    exact total_104_eq_sum prof.fan_level_list

/-- Witness for C9 at a concrete profile with an empty fan list. -/
theorem derived_totals_sum_categories_witness :
    (⟨"P", "nm", 1, 5, character_levels [], total_level [], total_104_level [],
        none, none, none, none, none, none⟩ : PlayerData).season_total
      = (CHARACTER_IDS.map (levelAt [])).sum ∧
    (⟨"P", "nm", 1, 5, character_levels [], total_level [], total_104_level [],
        none, none, none, none, none, none⟩ : PlayerData).season_total_104
      = ((CHARACTER_IDS.filter fun c => decide (c ∉ EXCLUDED_104)).map (levelAt [])).sum :=
  derived_totals_sum_categories (fun _ => some ⟨"nm", []⟩) ⟨"P", 1, 5⟩ ⟨"nm", []⟩
    ⟨"P", "nm", 1, 5, character_levels [], total_level [], total_104_level [],
      none, none, none, none, none, none⟩ rfl rfl

theorem list_lookup_cons (a k : Nat) (v : Int) (l : List (Nat × Int)) :
    ((k, v) :: l).lookup a = if a == k then some v else l.lookup a := by
  cases h : a == k <;> simp [List.lookup, h]

theorem lookup_map_update {cid c : Nat} (x : Int) (hne : c ≠ cid) :
    ∀ L : List (Nat × Int),
      (L.map fun cv => if cv.1 = c then (cv.1, x) else cv).lookup cid = L.lookup cid := by
  intro L
  induction L with
  | nil => rfl
  | cons kv L ih =>
    obtain ⟨k, v⟩ := kv
    rw [List.map_cons]
    by_cases hk : k = c
    · have hif : (if (k, v).1 = c then ((k, v).1, x) else (k, v)) = (k, x) := by
        simp [hk]
      rw [hif, list_lookup_cons, list_lookup_cons]
      have hbeq : (cid == k) = false := by
        simp only [beq_eq_false_iff_ne, ne_eq]
        omega
      rw [hbeq]
      simp [ih]
    · have hif : (if (k, v).1 = c then ((k, v).1, x) else (k, v)) = (k, v) := by
        simp [hk]
      rw [hif, list_lookup_cons, list_lookup_cons]
      cases hbeq : cid == k
      · simp [ih]
      · simp

theorem foldl_updateLevels_untouched {cid : Nat} :
    ∀ (fans : List FanInfo) (L : List (Nat × Int)),
      (∀ f ∈ fans, f.character_id ≠ some cid) →
      (fans.foldl updateLevels L).lookup cid = L.lookup cid := by
  intro fans
  induction fans with
  | nil => intro L _; rfl
  | cons f fans ih =>
    intro L hf
    rw [List.foldl_cons, ih (updateLevels L f) (fun g hg => hf g (List.mem_cons_of_mem f hg))]
    unfold updateLevels
    cases hcf : f.character_id with
    | none => rfl
    | some c =>
      dsimp only
      have hcc : c ≠ cid := by
        intro he
        exact hf f (List.mem_cons_self f fans) (by rw [hcf, he])
      by_cases hmem : c ∈ L.map Prod.fst
      · rw [if_pos hmem]
        exact lookup_map_update _ hcc L
      · rw [if_neg hmem]

theorem initLevels_lookup {cid : Nat} (h : cid ∈ CHARACTER_IDS) :
    initLevels.lookup cid = some 0 := by
  unfold initLevels
  have hgen : ∀ ids : List Nat, cid ∈ ids →
      ((ids.map fun c => (c, (0 : Int))).lookup cid) = some 0 := by
    intro ids
    induction ids with
    | nil => intro h2; simp at h2
    | cons k ids ih =>
      intro h2
      by_cases hk : cid = k
      · subst hk
        simp [List.lookup]
      · have hbeq : (cid == k) = false := by simp [hk]
        rcases List.mem_cons.mp h2 with h3 | h3
        · exact absurd h3 hk
        · simp [List.map_cons, List.lookup, hbeq, ih h3]
  exact hgen CHARACTER_IDS h

theorem lookup_isSome_of_mem_keys {cid : Nat} :
    ∀ L : List (Nat × Int), cid ∈ L.map Prod.fst → (L.lookup cid).isSome = true := by
  intro L
  induction L with
  | nil => intro h; simp at h
  | cons kv L ih =>
    intro h
    obtain ⟨k, v⟩ := kv
    by_cases hk : cid = k
    · subst hk
      simp [List.lookup]
    · have hbeq : (cid == k) = false := by simp [hk]
      simp only [List.map_cons, List.mem_cons] at h
      rcases h with h | h
      · exact absurd h hk
      · simp [List.lookup, hbeq, ih h]

/-- Claim C10: the character level table of a fetched profile has an entry
for every configured character id, and a character absent from the profile
fan_level_list keeps the initial level 0 — a present value, not the absent
value used for sibling-stream scores. -/
theorem character_levels_default_zero (fans : List FanInfo) (cid : Nat)
    (hc : cid ∈ CHARACTER_IDS) :
    ((character_levels fans).lookup cid).isSome = true ∧
    (cid ∉ fans.filterMap FanInfo.character_id →
      (character_levels fans).lookup cid = some 0) ∧
    some (0 : Int) ≠ (none : Option Int) := by
  refine ⟨?_, ?_, by simp⟩
  · apply lookup_isSome_of_mem_keys
    rw [character_levels_keys]
    exact hc
  · intro hno
    have hfans : ∀ f ∈ fans, f.character_id ≠ some cid := by
      intro f hfm he
      exact hno (List.mem_filterMap.mpr ⟨f, hfm, he⟩)
    unfold character_levels
    rw [foldl_updateLevels_untouched fans initLevels hfans]
    exact initLevels_lookup hc

/-- Witness for C10 at the empty fan list and a concrete character id. -/
theorem character_levels_default_zero_witness :
    ((character_levels []).lookup 1031).isSome = true ∧
    (1031 ∉ ([] : List FanInfo).filterMap FanInfo.character_id →
      (character_levels []).lookup 1031 = some 0) ∧
    some (0 : Int) ≠ (none : Option Int) :=
  character_levels_default_zero [] 1031 (by decide)

end LGP
